import Mathlib

/-!
Verification of the skillify repository (src/skillify.py and
src/examples/autoforge/entrypoint.py) against its specification.

The Python source is shallowly embedded: pure computations become Lean
functions over explicit data; filesystem reads become fields of a record
describing the relevant on-disk state (a file is `none` when absent, and a
read outcome distinguishes an I/O error from content); Python exceptions that
can escape a function are modelled with `Except`.  All string operations are
implemented over the underlying character lists so that every definition
evaluates inside the kernel.
-/

set_option autoImplicit false

namespace Skillify

/-! ### Character and string helpers (Python semantics) -/

/-- Lexicographic comparison of character lists by code point, the order used
by Python string comparison. -/
def charListLt : List Char → List Char → Bool
  | [], [] => false
  | [], _ :: _ => true
  | _ :: _, [] => false
  | a :: as, b :: bs =>
    if a < b then true else if b < a then false else charListLt as bs

/-- Python whitespace for str.strip: space, tab, newline, carriage return,
vertical tab, form feed. -/
def isPyWs (c : Char) : Bool :=
  c = ' ' || c = '\t' || c = '\n' || c = '\x0d' || c = '\x0b' || c = '\x0c'

/-- Python str.strip(): remove leading and trailing whitespace. -/
def pyStrip (s : String) : String :=
  ⟨((s.data.dropWhile isPyWs).reverse.dropWhile isPyWs).reverse⟩

/-- First n characters, Python s[:n]. -/
def pyTake (s : String) (n : Nat) : String := ⟨s.data.take n⟩

/-- Python s.startswith(p). -/
def pyStartsWith (s p : String) : Bool := p.data.isPrefixOf s.data

/-- Python s.endswith(p). -/
def pyEndsWith (s p : String) : Bool := p.data.isSuffixOf s.data

/-- Python s.lower(), restricted to ASCII case mapping (sufficient for every
string this program lowercases). -/
def pyLower (s : String) : String := ⟨s.data.map Char.toLower⟩

/-- Python s.upper(), ASCII. -/
def pyUpper (s : String) : String := ⟨s.data.map Char.toUpper⟩

/-- Python "sep".join(l). -/
def pyJoin (sep : String) : List String → String
  | [] => ""
  | [x] => x
  | x :: y :: rest => x ++ sep ++ pyJoin sep (y :: rest)

/-- Concatenation of a list of strings. -/
def strConcat : List String → String
  | [] => ""
  | x :: rest => x ++ strConcat rest

/-- Does the character occur in the string (Python "c in s" for a single
character, and str.__contains__ restricted to length-1 needles). -/
def hasChar (s : String) (c : Char) : Bool := s.data.contains c

/-- Python str.replace where both arguments are single characters. -/
def pyReplaceChar (s : String) (a b : Char) : String :=
  ⟨s.data.map (fun c => if c = a then b else c)⟩

/-- Remove every occurrence of a character (Python s.replace(c, "")). -/
def pyDropChar (s : String) (a : Char) : String :=
  ⟨s.data.filter (fun c => c ≠ a)⟩

/-- Split on the two-character separator "\n\n", Python s.split("\n\n"):
non-overlapping occurrences scanned left to right. -/
def splitNNAux : List Char → List Char → List (List Char)
  | '\n' :: '\n' :: rest, acc => acc.reverse :: splitNNAux rest []
  | c :: rest, acc => splitNNAux rest (c :: acc)
  | [], acc => [acc.reverse]

/-- Python readme.split("\n\n"). -/
def pySplitParas (s : String) : List String :=
  (splitNNAux s.data []).map fun l => ⟨l⟩

/-- Split on the newline character, Python content behaviour of a MULTILINE
anchored regex scan: one candidate per line. -/
def splitLinesAux : List Char → List Char → List (List Char)
  | '\n' :: rest, acc => acc.reverse :: splitLinesAux rest []
  | c :: rest, acc => splitLinesAux rest (c :: acc)
  | [], acc => [acc.reverse]

/-- Lines of a string, separated by the newline character. -/
def pyLines (s : String) : List String :=
  (splitLinesAux s.data []).map fun l => ⟨l⟩

/-- Split on a single separator character, Python s.split(sep) for a
one-character separator. -/
def splitOnCharAux (sep : Char) : List Char → List Char → List (List Char)
  | [], acc => [acc.reverse]
  | c :: rest, acc =>
    if c = sep then acc.reverse :: splitOnCharAux sep rest []
    else splitOnCharAux sep rest (c :: acc)

/-- Python s.split(sep) for a one-character separator sep. -/
def pySplitChar (s : String) (sep : Char) : List String :=
  (splitOnCharAux sep s.data []).map fun l => ⟨l⟩

/-- Is `needle` a contiguous substring of `hay` (Python "needle in hay"). -/
def strSubAux (needle : List Char) : List Char → Bool
  | [] => needle.isEmpty
  | c :: rest => needle.isPrefixOf (c :: rest) || strSubAux needle rest

/-- Python "needle in hay" for strings. -/
def pyContains (hay needle : String) : Bool := strSubAux needle.data hay.data

/-- Decimal digits of a natural number, with fuel for structural recursion. -/
def natDigits : Nat → Nat → List Char
  | 0, _ => []
  | fuel + 1, n =>
    if n < 10 then [Char.ofNat (48 + n)]
    else natDigits fuel (n / 10) ++ [Char.ofNat (48 + n % 10)]

/-- Decimal rendering of a natural number (Python str(n)). -/
def natToStr (n : Nat) : String := ⟨natDigits (n + 1) n⟩

/-- Python truthiness of an optional string argument: None and "" are falsy. -/
def truthyStr : Option String → Option String
  | none => none
  | some s => if s = "" then none else some s

/-! ### Filesystem model

A directory tree is a list of entries; a directory carries the flag saying
whether listing it raises PermissionError, and its children.  File contents
are not part of this tree: the manifest files the program parses are modelled
separately as fields of `Repo`, because the Python code reads them through
dedicated parsers. -/

inductive FsEntry where
  | file (name : String)
  | dir (name : String) (permError : Bool) (children : List FsEntry)

def FsEntry.name : FsEntry → String
  | .file n => n
  | .dir n _ _ => n

def FsEntry.isDir : FsEntry → Bool
  | .file _ => false
  | .dir _ _ _ => true

mutual

/-- Base names of all files anywhere under an entry
(Python set(f.name for f in repo_path.rglob("*") if f.is_file()), except that
we keep a list; the classifier only tests membership and suffixes, for which
a list with possible repetitions is equivalent to the set). -/
def filesOf : FsEntry → List String
  | .file n => [n]
  | .dir _ _ ch => filesOfList ch

def filesOfList : List FsEntry → List String
  | [] => []
  | e :: rest => filesOf e ++ filesOfList rest

end

/-- Outcome of touching an existing file: reading may raise IOError, or
produce the (already decoded) value `α`. -/
inductive FileOutcome (α : Type) where
  | ioError
  | content (v : α)
deriving DecidableEq

/-! ### Sorting of directory entries

Python: sorted(path.iterdir(), key=lambda e: (not e.is_dir(), e.name.lower())).
Python sort is stable; insertion sort below is stable for the same total
preorder, hence produces the identical list. -/

/-- Key order: directories before files, then case-insensitive name order;
`true` when a may come no later than b (ties keep original order). -/
def entryLe (a b : FsEntry) : Bool :=
  let ra : Nat := if a.isDir then 0 else 1
  let rb : Nat := if b.isDir then 0 else 1
  if ra < rb then true
  else if rb < ra then false
  else !(charListLt (pyLower b.name).data (pyLower a.name).data)

def insertEntry (x : FsEntry) : List FsEntry → List FsEntry
  | [] => [x]
  | y :: ys => if entryLe x y then x :: y :: ys else y :: insertEntry x ys

def sortEntries : List FsEntry → List FsEntry
  | [] => []
  | x :: xs => insertEntry x (sortEntries xs)

/-! ### Project type detection (detect_project_type) -/

/-- PROJECT_SIGNATURES, in dict insertion order. -/
def PROJECT_SIGNATURES : List (String × List String) :=
  [("python", ["pyproject.toml", "setup.py", "requirements.txt", "Pipfile"]),
   ("node", ["package.json", "package-lock.json", "yarn.lock", "pnpm-lock.yaml"]),
   ("rust", ["Cargo.toml", "Cargo.lock"]),
   ("go", ["go.mod", "go.sum"]),
   ("ruby", ["Gemfile", "Gemfile.lock", "*.gemspec"]),
   ("java", ["pom.xml", "build.gradle", "build.gradle.kts"]),
   ("dotnet", ["*.csproj", "*.sln", "*.fsproj"]),
   ("terraform", ["*.tf", "terraform.tfstate"]),
   ("docker", ["Dockerfile", "docker-compose.yml", "docker-compose.yaml"]),
   ("k8s", ["*.yaml", "*.yml"])]

/-- One signature pattern against the collected file names: a pattern with a
wildcard becomes a suffix test after deleting the star, otherwise exact
membership. -/
def sigMatch (files : List String) (sig : String) : Bool :=
  if hasChar sig '*' then
    files.any fun f => pyEndsWith f (pyDropChar sig '*')
  else files.contains sig

/-- The type tags appended by the loop, in PROJECT_SIGNATURES order; a type is
included as soon as one of its patterns matches (break). -/
def matchedTypes (files : List String) : List String :=
  (PROJECT_SIGNATURES.filter fun p => p.2.any (sigMatch files)).map Prod.fst

/-- detect_project_type.  `setOrder` abstracts the iteration order of the
Python expression list(set(types)): any function returning a permutation of
its input is an admissible behaviour (str hashing is randomized per process,
so the order is not fixed across runs).  `matchedTypes` never repeats a tag,
so deduplication by set is the identity on the underlying multiset. -/
def detect_project_type (tree : List FsEntry) (setOrder : List String → List String) :
    List String :=
  let types := setOrder (matchedTypes (filesOfList tree))
  if types = [] then ["generic"] else types

/-! ### Repository state

Fields mirror exactly the files get_project_metadata, get_readme_content,
detect_entry_points and generate_skill read.  `none` means the file does not
exist; a `FileOutcome` distinguishes an unreadable file from its decoded
content. -/

/-- Result of json.load on an existing package.json: `parsed = none` models a
json.JSONDecodeError; otherwise the fields the program reads.  `scripts` and
`dependencies` hold the key lists of the corresponding JSON objects, in
insertion order, which is all the program uses. -/
structure PkgJsonFile where
  name : Option String
  description : Option String
  version : Option String
  scripts : List String
  dependencies : List String
deriving DecidableEq

/-- The [project] table of a pyproject.toml as tomllib exposes it;
pyproj.get("project", {}) on a file without that table yields all-absent
fields and an empty dependency list. -/
structure PyProjectTable where
  name : Option String
  description : Option String
  version : Option String
  dependencies : List String
deriving DecidableEq

/-- An existing pyproject.toml: `toml = none` models text that tomllib
rejects (tomllib.TOMLDecodeError); the regex fields are the results of
re.search for name and description patterns on the raw text, used by the
fallback path when tomllib is unavailable. -/
structure PyProjectFile where
  toml : Option PyProjectTable
  regexName : Option String
  regexDesc : Option String
deriving DecidableEq

/-- An existing Cargo.toml: the two re.search results on its text. -/
structure CargoFile where
  regexName : Option String
  regexDesc : Option String
deriving DecidableEq

/-- The on-disk state a generator run reads. -/
structure Repo where
  dirName : String
  tree : List FsEntry
  packageJson : Option (FileOutcome (Option PkgJsonFile))
  pyproject : Option (FileOutcome PyProjectFile)
  cargo : Option (FileOutcome CargoFile)
  makefile : Option (FileOutcome String)
  /-- Documentation files, keyed by name relative to the root (README.md and
  friends), with their text. -/
  docFiles : List (String × FileOutcome String)

structure Metadata where
  name : String
  description : String
  version : String
  scripts : List String
  dependencies : List String
deriving DecidableEq

/-- Python exceptions that can escape the embedded functions. -/
inductive PyErr where
  | tomlDecodeError
  | jsonDecodeError
  | ioError
deriving DecidableEq

/-! ### get_project_metadata

Straight transcription.  The package.json block catches JSONDecodeError and
IOError.  The pyproject block catches only ImportError and IOError: a
TOMLDecodeError raised by tomllib.load on malformed text is NOT caught and
escapes the function.  The Cargo block catches IOError only (re.search on a
read string cannot fail). -/
/-- The initial dict plus the "Try package.json" block: on a parsed file the
fields are taken from it with the dict defaults shown in the source; an
absent file, a JSONDecodeError or an IOError leave the initial values. -/
def metaFromPkg (repo : Repo) : Metadata :=
  let m : Metadata :=
    { name := repo.dirName, description := "", version := "",
      scripts := [], dependencies := [] }
  match repo.packageJson with
  | some (.content (some pkg)) =>
    { name := pkg.name.getD m.name
      description := pkg.description.getD ""
      version := pkg.version.getD ""
      scripts := pkg.scripts
      dependencies := pkg.dependencies }
  | _ => m            -- absent, or JSONDecodeError / IOError caught
/-- The "Try pyproject.toml" block applied to the metadata accumulated so
far.  With tomllib importable the block catches nothing but ImportError and
IOError, so a TOMLDecodeError from tomllib.load escapes; on the parsed table
it overwrites description, version and dependencies unconditionally (the
dict.get defaults are empty).  Without tomllib the ImportError is caught and
the regex fallback fills name and description only where re.search matched.
An unreadable file is caught by one of the two IOError handlers and
contributes nothing. -/
def metaPyproject (tomllibAvailable : Bool) (repo : Repo) (m : Metadata) :
    Except PyErr Metadata :=
  match repo.pyproject with
  | some (.content f) =>
    if tomllibAvailable then
      match f.toml with
      | some project =>
        Except.ok { m with
                    name := project.name.getD m.name
                    description := project.description.getD ""
                    version := project.version.getD ""
                    dependencies := project.dependencies }
      | none => Except.error PyErr.tomlDecodeError   -- NOT caught: escapes
    else
      Except.ok { m with
                  name := f.regexName.getD m.name
                  description := f.regexDesc.getD m.description }
  | some .ioError => Except.ok m
  | none => Except.ok m

/-- The "Try Cargo.toml" block: each regex hit overwrites its field. -/
def metaCargo (repo : Repo) (m : Metadata) : Metadata :=
  match repo.cargo with
  | some (.content f) =>
    { m with
      name := f.regexName.getD m.name
      description := f.regexDesc.getD m.description }
  | _ => m

/-- get_project_metadata: the three blocks in source order. -/
def get_project_metadata (tomllibAvailable : Bool) (repo : Repo) :
    Except PyErr Metadata :=
  Except.map (metaCargo repo) (metaPyproject tomllibAvailable repo (metaFromPkg repo))

/-! ### get_readme_content -/

def README_NAMES : List String := ["README.md", "README.rst", "README.txt", "README"]

/-- The loop body of get_readme_content over the candidate names. -/
def readmeScan (repo : Repo) : List String → String
  | [] => ""
  | n :: rest =>
    match repo.docFiles.lookup n with
    | some (.content c) => pyTake c 10000
    | some .ioError => readmeScan repo rest
    | none => readmeScan repo rest

/-- First readable README, truncated to 10000 characters; an IOError moves on
to the next candidate. -/
def get_readme_content (repo : Repo) : String :=
  readmeScan repo README_NAMES

/-! ### get_directory_tree

The nested function walk mutates the enclosing lines list and file_count; we
thread them as a state.  Crucially, when the counter passes max_files a walk
appends one ellipsis line and returns to its caller, whose own loop then
continues (and, on its next non-ignored entry, appends its own ellipsis line
and returns in turn): the early return is per level, not global. -/

structure TState where
  lines : List String
  fileCount : Nat
deriving DecidableEq

def IGNORE_DIRS : List String :=
  [".git", ".venv", "venv", "node_modules", "__pycache__", ".pytest_cache",
   "target", "dist", "build", ".next", ".cache", "coverage"]

def isIgnored (e : FsEntry) : Bool :=
  IGNORE_DIRS.contains e.name || pyStartsWith e.name "."

/-- One non-ignored, non-overflowing iteration of the loop of walk: append
the connector line for the entry and, for a directory, run the one-level-
deeper walk `wk` on its children. -/
def walkStep (wk : Bool → List FsEntry → String → TState → TState)
    (total : Nat) (pre : String) (i : Nat) (e : FsEntry) (s : TState) : TState :=
  let isLast := i = total - 1
  let conn := if isLast then "└── " else "├── "
  let s1 : TState :=
    { lines := s.lines ++ [pre ++ conn ++ e.name], fileCount := s.fileCount + 1 }
  match e with
  | .file _ => s1
  | .dir _ perr ch =>
    wk perr ch (pre ++ (if isLast then "    " else "│   ")) s1

/-- The for-loop of walk over the sorted entries.  `wk` is the recursive call
for one level deeper (its depth and bound parameters are already applied);
`total` is the length of the full sorted list (the index used for the
last-sibling test counts ignored entries too, exactly as enumerate does).
When the incremented counter passes max_files the loop appends one ellipsis
line and returns (return exits only this level; the caller's loop resumes). -/
def walkLoop (wk : Bool → List FsEntry → String → TState → TState)
    (maxFiles : Nat) (total : Nat) (pre : String) :
    List FsEntry → Nat → TState → TState
  | [], _, s => s
  | e :: rest, i, s =>
    if isIgnored e then walkLoop wk maxFiles total pre rest (i + 1) s
    else
      if s.fileCount + 1 > maxFiles then
        { lines := s.lines ++ [pre ++ "..."], fileCount := s.fileCount + 1 }
      else
        walkLoop wk maxFiles total pre rest (i + 1) (walkStep wk total pre i e s)

/-- walk, with fuel for structural recursion.  Each level of recursion
consumes one unit, and walk returns unconditionally at depth > max_depth, so
any fuel exceeding max_depth + 1 yields exactly the source semantics (the
fuel-0 branch is then unreachable). -/
def walkFuel (maxDepth maxFiles : Nat) :
    Nat → Bool → List FsEntry → Nat → String → TState → TState
  | 0, _, _, _, _, s => s
  | fuel + 1, permError, children, depth, pre, s =>
    if depth > maxDepth || s.fileCount > maxFiles then s
    else if permError then s    -- PermissionError from iterdir: empty listing
    else
      let entries := sortEntries children
      walkLoop (fun perr ch pre' s' => walkFuel maxDepth maxFiles fuel perr ch (depth + 1) pre' s')
        maxFiles entries.length pre entries 0 s

/-- The lines produced by get_directory_tree. -/
def get_directory_tree_lines (tree : List FsEntry) (maxDepth maxFiles : Nat) :
    List String :=
  (walkFuel maxDepth maxFiles (maxDepth + 2) false tree 0 "" ⟨[], 0⟩).lines

/-- get_directory_tree: "\n".join(lines). -/
def get_directory_tree (tree : List FsEntry) (maxDepth maxFiles : Nat) : String :=
  pyJoin "\n" (get_directory_tree_lines tree maxDepth maxFiles)

/-! ### detect_entry_points -/

def EXEC_NAMES : List String :=
  ["main.py", "app.py", "cli.py", "index.js", "main.rs", "main.go"]

def CANONICAL_TARGETS : List String := ["all", "clean", "install", "test", "build"]

/-- Does the root contain an entry with this name (Path.exists: file or
directory). -/
def rootHasName (tree : List FsEntry) (n : String) : Bool :=
  tree.any fun e => e.name = n

/-- Does the conventional src subdirectory contain an entry with this name. -/
def srcHasName (tree : List FsEntry) (n : String) : Bool :=
  tree.any fun e =>
    match e with
    | .dir d _ ch => d = "src" && ch.any (fun c => c.name = n)
    | .file _ => false

def isIdentStart (c : Char) : Bool := c.isAlpha || c = '_'

def isIdentChar (c : Char) : Bool := c.isAlpha || c.isDigit || c = '_' || c = '-'

/-- One line against the anchored pattern ([a-zA-Z_][a-zA-Z0-9_-]*): the
captured identifier when the line starts with one immediately followed by a
colon. -/
def matchTarget (line : String) : Option String :=
  match line.data with
  | [] => none
  | c :: rest =>
    if isIdentStart c then
      match rest.dropWhile isIdentChar with
      | ':' :: _ => some ⟨c :: rest.takeWhile isIdentChar⟩
      | _ => none
    else none

/-- re.findall of the target pattern with re.MULTILINE: one candidate per
line, in order. -/
def makefileTargets (content : String) : List String :=
  (pyLines content).filterMap matchTarget

/-- detect_entry_points: executables in fixed order, then Makefile targets
(first 10; canonical ones inserted at the front, others appended), then npm
scripts, truncated to 15.  No deduplication anywhere. -/
def detect_entry_points (repo : Repo) : List String :=
  let eps := EXEC_NAMES.filter fun n => rootHasName repo.tree n || srcHasName repo.tree n
  let eps :=
    match repo.makefile with
    | some (.content content) =>
      ((makefileTargets content).take 10).foldl
        (fun acc t =>
          if CANONICAL_TARGETS.contains t then ("make " ++ t) :: acc
          else acc ++ ["make " ++ t])
        eps
    | _ => eps            -- absent, or IOError caught
  let eps :=
    match repo.packageJson with
    | some (.content (some pkg)) => eps ++ pkg.scripts.map (fun s => "npm run " ++ s)
    | _ => eps            -- absent, or JSONDecodeError / IOError caught
  eps.take 15

/-! ### generate_skill_md -/

def DOC_FILES : List String :=
  ["README.md", "README.rst", "README.txt", "README",
   "CONTRIBUTING.md", "CONTRIBUTING.rst",
   "ARCHITECTURE.md", "DESIGN.md",
   "API.md", "API.rst",
   "CHANGELOG.md", "CHANGELOG.rst", "CHANGELOG",
   "docs/README.md", "docs/index.md"]

/-- Path(p).name: the part after the last slash. -/
def pathName (p : String) : String :=
  ((pySplitChar p '/').getLastD p)

/-- Path(p).stem: the name without its last dotted suffix (no element of
DOC_FILES starts with a dot, so the leading-dot special case of pathlib never
arises here). -/
def pathStem (p : String) : String :=
  let base := pathName p
  let parts := pySplitChar base '.'
  if parts.length ≤ 1 then base else pyJoin "." parts.dropLast

/-- fnmatch of a single component pattern that contains at most one star,
with the glob rule that a leading star does not match a leading dot. -/
def fnmatch1 (pat n : String) : Bool :=
  if hasChar pat '*' then
    match pySplitChar pat '*' with
    | [pre, suf] =>
      !(pre = "" && pyStartsWith n ".") &&
      pyStartsWith n pre && pyEndsWith n suf &&
      pre.data.length + suf.data.length ≤ n.data.length
    | _ => pat = n
  else pat = n

/-- Path.glob for the fixed two-component key patterns: a literal directory
name, then a component pattern matched against the children of every such
directory. -/
def globMatch (tree : List FsEntry) (pattern : String) : Bool :=
  match pySplitChar pattern '/' with
  | [p] => tree.any fun e => fnmatch1 p e.name
  | [d, p] =>
    tree.any fun e =>
      match e with
      | .dir dn _ ch => dn = d && ch.any (fun c => fnmatch1 p c.name)
      | .file _ => false
  | _ => false

def KEY_PATTERNS : List (String × String) :=
  [("src/main.*", "Application entry point"),
   ("src/lib.*", "Library exports"),
   ("src/index.*", "Module entry"),
   ("config/*", "Configuration"),
   ("tests/*", "Test suite")]

/-- The paragraph filter of the purpose loop: longer than 50 characters and
starting with neither a heading marker nor a code fence. -/
def purposeQualifies (p : String) : Bool :=
  decide (p.data.length > 50) && !pyStartsWith p "#" && !pyStartsWith p "```"

/-- The first meaningful paragraph of the README: first double-newline block
whose stripped text is longer than 50 characters and starts with neither a
heading nor a code fence, truncated to 500 characters; empty when readme is
empty or none qualifies. -/
def readmePurpose (readme : String) : String :=
  if readme = "" then ""
  else
    match ((pySplitParas readme).map pyStrip).find? purposeQualifies with
    | some p => pyTake p 500
    | none => ""

/-- generate_skill_md, transcribed piece by piece from the f-string template
and the appended section strings (literal braces of the source are the
escaped brace characters here). -/
def generate_skill_md (tree_root : List FsEntry) (project_types : List String)
    (metadata : Metadata) (entry_points : List String) (tree : String)
    (readme : String) : String :=
  let name := pyLower (pyReplaceChar metadata.name '_' '-')
  let description :=
    if metadata.description = "" then "Work with the " ++ metadata.name ++ " codebase."
    else metadata.description
  let triggers :=
    ["working on " ++ name, "navigate " ++ name, "build " ++ name,
     "debug " ++ name, name ++ " codebase"]
  let purpose := readmePurpose readme
  let header :=
    "---\nname: " ++ name ++ "\ndescription: " ++ description ++ " Use when " ++
    pyJoin ", " (triggers.take 3) ++ ".\n---\n\n# " ++ metadata.name ++ "\n\n" ++
    (if purpose = "" then "Codebase skill for " ++ metadata.name ++ "." else purpose) ++
    "\n\n## Project Type\n\n" ++ pyJoin ", " project_types ++
    "\n\n## Directory Structure\n\n```\n" ++ tree ++ "\n```\n\n## Quick Start\n\n"
  let cmds :=
    if entry_points = [] then ""
    else
      "### Common Commands\n\n" ++
      strConcat ((entry_points.take 8).map fun ep => "```bash\n" ++ ep ++ "\n```\n\n")
  let pySetup :=
    if project_types.contains "python" then
      "### Python Setup\n\n```bash\ncd \x7b\x7bskill_dir\x7d\x7d\npython -m venv .venv\nsource .venv/bin/activate\npip install -e .\n```\n\n"
    else ""
  let nodeSetup :=
    if project_types.contains "node" then
      "### Node.js Setup\n\n```bash\ncd \x7b\x7bskill_dir\x7d\x7d\nnpm install\n```\n\n"
    else ""
  let rustSetup :=
    if project_types.contains "rust" then
      "### Rust Setup\n\n```bash\ncd \x7b\x7bskill_dir\x7d\x7d\ncargo build\n```\n\n"
    else ""
  let refsSection :=
    "## References\n\nSee `references/` for detailed documentation:\n\n" ++
    strConcat ((DOC_FILES.take 5).map fun doc =>
      "- [" ++ pyUpper (pathStem doc) ++ "](references/" ++ pathName doc ++ ")\n")
  let keyHeader := "\n## Key Files\n\n| File | Purpose |\n|------|---------|\n"
  let keyRows :=
    strConcat (KEY_PATTERNS.map fun pp =>
      if globMatch tree_root pp.1 then "| `" ++ pp.1 ++ "` | " ++ pp.2 ++ " |\n"
      else "")
  header ++ cmds ++ pySetup ++ nodeSetup ++ rustSetup ++ refsSection ++ keyHeader ++ keyRows

/-- The SKILL.md content produced by one generate_skill run on a repository:
the composition of the analysis steps exactly as generate_skill calls them.
A TOMLDecodeError escaping get_project_metadata aborts the run. -/
def skill_md_of (tomllibAvailable : Bool) (repo : Repo)
    (setOrder : List String → List String) : Except PyErr String := do
  let project_types := detect_project_type repo.tree setOrder
  let metadata ← get_project_metadata tomllibAvailable repo
  let readme := get_readme_content repo
  let tree := get_directory_tree repo.tree 3 50
  let entry_points := detect_entry_points repo
  pure (generate_skill_md repo.tree project_types metadata entry_points tree readme)

/-! ### generate_skill acquisition and cleanup control flow

Only the lifecycle of the temporary clone directory is modelled here (the
analysis/rendering calls above are pure).  The source order of events is:

  1. for a URL source: tempfile.mkdtemp, then clone_repo; a failed clone
     raises RuntimeError BEFORE the try/finally block is entered;
  2. for a local source: resolve, raise FileNotFoundError if absent
     (temp_dir is None);
  3. the try body runs the analysis and the writes and may raise;
  4. the finally clause runs shutil.rmtree(temp_dir, ignore_errors=True)
     when temp_dir is set and keep_clone is false. -/

/-- How a generate_skill invocation terminates. -/
inductive GenOutcome where
  | ok                 -- normal return of the skill path
  | cloneFailed        -- RuntimeError("Failed to clone ...")
  | notFound           -- FileNotFoundError for a local path
  | bodyError          -- an exception raised inside the try body
deriving DecidableEq

/-- Environment of one run: does the git clone succeed, does the analysis or
write phase raise, does the rmtree call itself fail (swallowed by
ignore_errors). -/
structure GenEnv where
  cloneSucceeds : Bool
  bodyRaises : Bool
  rmtreeFails : Bool
deriving DecidableEq

/-- Observable effects of one run on the temporary directory. -/
structure GenResult where
  outcome : GenOutcome
  tempCreated : Bool
  /-- Was shutil.rmtree invoked on the temporary directory. -/
  removalAttempted : Bool
  /-- Is the temporary directory gone at exit. -/
  tempRemoved : Bool
deriving DecidableEq

/-- source.startswith of the three URL markers. -/
def is_url (source : String) : Bool :=
  pyStartsWith source "http://" || pyStartsWith source "https://" ||
  pyStartsWith source "git@"

/-- The lifecycle of generate_skill. -/
def generate_skill_run (source : String) (keepClone : Bool) (localExists : Bool)
    (env : GenEnv) : GenResult :=
  if is_url source then
    if !env.cloneSucceeds then
      -- raise RuntimeError before the try/finally: no cleanup runs
      { outcome := .cloneFailed, tempCreated := true,
        removalAttempted := false, tempRemoved := false }
    else
      let outcome := if env.bodyRaises then GenOutcome.bodyError else GenOutcome.ok
      if keepClone then
        { outcome, tempCreated := true, removalAttempted := false, tempRemoved := false }
      else
        { outcome, tempCreated := true, removalAttempted := true,
          tempRemoved := !env.rmtreeFails }
  else
    if !localExists then
      { outcome := .notFound, tempCreated := false,
        removalAttempted := false, tempRemoved := false }
    else
      { outcome := if env.bodyRaises then GenOutcome.bodyError else GenOutcome.ok,
        tempCreated := false, removalAttempted := false, tempRemoved := false }

end Skillify

namespace Autoforge

open Skillify (pyStartsWith pyLower pyContains natToStr truthyStr pyJoin PyErr FileOutcome)

/-!
### The skill wrapper (src/examples/autoforge/entrypoint.py)

Result dictionaries are embedded as a record holding every key a claim
inspects (status, summary, action_required, artifacts, task, the progress
counters, project_path, command); purely informational payload keys (note,
next_steps, the help text, the per-project status payload, sub_agent_result)
are not represented.  File reads are fields of `AfFs`; json.loads failures
are `none` parse outcomes, raising exactly where the source leaves them
uncaught. -/

/-- One entry of the "tasks" array of tasks.json; every access in the source
goes through dict.get, so each field is optional. -/
structure Task where
  id : Option String := none
  name : Option String := none
  description : Option String := none
  dependencies : List String := []
deriving DecidableEq

/-- Parsed tasks.json: tasks_data.get("tasks", []) and
tasks_data.get("completed", []). -/
structure TasksData where
  tasks : List Task := []
  completed : List String := []
deriving DecidableEq

/-- The action descriptor sessions_spawn hands to the orchestrator. -/
structure AfAction where
  tool : String
  task : String
  label : String
  timeoutSeconds : Nat
deriving DecidableEq

/-- The dict returned by the sessions_spawn helper. -/
structure SpawnResult where
  status : String
  note : String
  action : AfAction
deriving DecidableEq

/-- sessions_spawn: skills cannot spawn sub-agents themselves, so this always
returns status "pending" with the action for the orchestrator. -/
def sessions_spawn (task label : String) (timeout : Nat) : SpawnResult :=
  { status := "pending"
    note := "Sub-agent required - orchestrator should execute sessions_spawn"
    action := { tool := "sessions_spawn", task := task, label := label,
                timeoutSeconds := timeout } }

/-- The args mapping of a request; every handler reads these keys with
dict.get, so all are optional. -/
structure AfArgs where
  name : Option String := none
  path : Option String := none
  project : Option String := none
  feature : Option String := none
  requirements : Option String := none
deriving DecidableEq

/-- request.json content: command and args are both read with dict.get. -/
structure Request where
  command : Option String := none
  args : AfArgs := {}
deriving DecidableEq

/-- A result document.  `artifacts` entries are (type, path) pairs. -/
structure AfResult where
  status : String
  summary : String
  artifacts : List (String × String) := []
  actionRequired : Option AfAction := none
  task : Option Task := none
  completedCount : Option Nat := none
  totalCount : Option Nat := none
  projectPath : Option String := none
  command : Option String := none
deriving DecidableEq

/-- A child of the projects directory as cmd_status sees it. -/
structure ProjChild where
  name : String
  isDir : Bool
deriving DecidableEq

/-- The filesystem state a wrapper run reads and writes.  `files` is the map
from path to content used by cmd_init; the per-project functions describe
PROJECTS_DIR/name for the other handlers (`tasksFile p = some none` models a
tasks.json whose text json.loads rejects). -/
structure AfFs where
  projectsDir : String
  files : List (String × String) := []
  dirs : List String := []
  projectExists : String → Bool := fun _ => false
  tasksFile : String → Option (Option TasksData) := fun _ => none
  specFile : String → Option (FileOutcome String) := fun _ => none
  projectsDirExists : Bool := false
  projectsChildren : List ProjChild := []

/-- Python f-string rendering of a dict.get result that may be None. -/
def fmtOpt (o : Option String) : String := o.getD "None"

/-- Python repr of a list of strings as rendered into an f-string
(no escaping needed for the identifiers that appear in task files). -/
def pyReprStrList (l : List String) : String :=
  "[" ++ pyJoin ", " (l.map fun s => "\x27" ++ s ++ "\x27") ++ "]"

def cmd_help (_args : AfArgs) : AfResult :=
  { status := "ok", summary := "AutoForge Skill - Available Commands",
    artifacts := [] }

/-- The spec template cmd_init writes to prompts/app_spec.txt. -/
def initSpecTemplate (name : String) : String :=
  "<project_specification>\n# Project: " ++ name ++
  "\n\n## Overview\n[Describe what this project does]\n\n## Features\n- [ ] Feature 1\n- [ ] Feature 2\n\n## Technical Requirements\n[List technical requirements]\n\n</project_specification>\n"

/-- json.dumps({"tasks": [], "completed": []}, indent=2). -/
def initTasksTemplate : String :=
  "\x7b\n  \"tasks\": [],\n  \"completed\": []\n\x7d"

/-- The guarded write of cmd_init: create the file with the given content
only when no file exists at that path (if not file.exists(): write_text). -/
def writeIfAbsent (files : List (String × String)) (p c : String) :
    List (String × String) :=
  if (files.lookup p).isSome then files else (p, c) :: files

/-- cmd_init: creates the directory layout, then writes the spec template and
the empty tasks file, each ONLY when the file does not already exist. -/
def cmd_init (args : AfArgs) (fs : AfFs) : AfResult × AfFs :=
  match truthyStr args.name with
  | none =>
    ({ status := "error", summary := "Project name is required", artifacts := [] }, fs)
  | some name =>
    let project_path :=
      match truthyStr args.path with
      | some p => p
      | none => fs.projectsDir ++ "/" ++ name
    let spec_path := project_path ++ "/prompts/app_spec.txt"
    let tasks_path := project_path ++ "/.autoforge/tasks.json"
    let files := writeIfAbsent fs.files spec_path (initSpecTemplate name)
    let files := writeIfAbsent files tasks_path initTasksTemplate
    ({ status := "ok", summary := "Initialized project \x27" ++ name ++ "\x27",
       projectPath := some project_path,
       artifacts := [("directory", project_path), ("file", spec_path),
                     ("file", tasks_path)] },
     { fs with
       files := files
       dirs := fs.dirs ++
         [project_path, project_path ++ "/prompts", project_path ++ "/.autoforge",
          project_path ++ "/src"] })

/-- The planning prompt of cmd_plan. -/
def planningPrompt (project requirements : String) : String :=
  "You are a technical architect. Create a detailed project specification and task breakdown.\n\nPROJECT: " ++
  project ++ "\n\nREQUIREMENTS:\n" ++ requirements ++
  "\n\nPlease provide:\n\n1. **Project Specification** (in <project_specification> tags):\n   - Clear project overview\n   - Detailed feature list with acceptance criteria\n   - Technical stack recommendations\n   - Architecture decisions\n\n2. **Task Breakdown** (as JSON):\n   Return a JSON object with this structure:\n   \x7b\n     \"tasks\": [\n       \x7b\n         \"id\": \"task-1\",\n         \"name\": \"Setup project structure\",\n         \"description\": \"Initialize the project with required dependencies\",\n         \"dependencies\": [],\n         \"estimated_complexity\": \"low|medium|high\"\n       \x7d\n     ]\n   \x7d\n\nBe specific and actionable. Each task should be completable by a focused coding agent.\n"

/-- cmd_plan.  sessions_spawn is definitionally pending, so the branches
handling a spawn error or a spawn success are unreachable; they are
transcribed against the SpawnResult record (which, like the source dict, has
no "error" or "output" key, so those dict.get calls yield None and the
success path finds no spec/tasks in the empty output and writes nothing). -/
def cmd_plan (args : AfArgs) (fs : AfFs) : AfResult :=
  match truthyStr args.project with
  | none => { status := "error", summary := "Project name is required", artifacts := [] }
  | some project =>
    match truthyStr args.requirements with
    | none => { status := "error", summary := "Requirements are required", artifacts := [] }
    | some requirements =>
      if !fs.projectExists project then
        { status := "error",
          summary := "Project \x27" ++ project ++ "\x27 not found. Run \x27init\x27 first.",
          artifacts := [] }
      else
        let spec_path := fs.projectsDir ++ "/" ++ project ++ "/prompts/app_spec.txt"
        let tasks_path := fs.projectsDir ++ "/" ++ project ++ "/.autoforge/tasks.json"
        let spawn := sessions_spawn (planningPrompt project requirements)
          ("autoforge-plan-" ++ project) 300
        if spawn.status = "pending" then
          { status := "pending", summary := "Planning requires OpenClaw sub-agent",
            actionRequired := some spawn.action, artifacts := [] }
        else if spawn.status = "error" then
          { status := "error", summary := "Planning failed: None", artifacts := [] }
        else
          { status := "ok", summary := "Generated plan for \x27" ++ project ++ "\x27",
            artifacts := [("file", spec_path), ("file", tasks_path)] }

/-- Is a task still pending: t.get("id") not in completed (an absent id is
never an element of the completed list of strings). -/
def taskPending (completed : List String) (t : Task) : Bool :=
  match t.id with
  | some i => !completed.contains i
  | none => true

/-- The build prompt of cmd_build. -/
def buildPrompt (project projectDir specContent : String) (task : Task) : String :=
  "You are a coding agent. Implement the following task.\n\nPROJECT: " ++ project ++
  "\nWORKING DIRECTORY: " ++ projectDir ++
  "\n\nSPECIFICATION:\n" ++ ⟨specContent.data.take 2000⟩ ++
  "\n\nCURRENT TASK:\nID: " ++ fmtOpt task.id ++
  "\nName: " ++ fmtOpt task.name ++
  "\nDescription: " ++ fmtOpt task.description ++
  "\n\nDependencies: " ++ pyReprStrList task.dependencies ++
  "\n\nPlease:\n1. Implement this task completely\n2. Create/modify the necessary files\n3. Write tests if applicable\n4. Provide a summary of changes made\n\nBe thorough and production-ready.\n"

/-- cmd_build.  The json.loads of tasks.json is NOT wrapped in try/except and
raises on malformed text; the spec read likewise propagates an IOError.  As
in cmd_plan, sessions_spawn is definitionally pending, so the spawn-error and
completion branches are unreachable transcriptions (the completion branch
would rewrite tasks.json). -/
def cmd_build (args : AfArgs) (fs : AfFs) : Except PyErr AfResult :=
  match truthyStr args.project with
  | none =>
    pure { status := "error", summary := "Project name is required", artifacts := [] }
  | some project =>
    if !fs.projectExists project then
      pure { status := "error",
             summary := "Project \x27" ++ project ++ "\x27 not found", artifacts := [] }
    else
      match fs.tasksFile project with
      | none =>
        pure { status := "error",
               summary := "No tasks found. Run \x27plan\x27 first.", artifacts := [] }
      | some none => Except.error PyErr.jsonDecodeError
      | some (some data) => do
        let tasks := data.tasks
        let completed := data.completed
        if tasks = [] then
          pure { status := "error",
                 summary := "No tasks defined. Run \x27plan\x27 first.", artifacts := [] }
        else do
          let spec_content ←
            match fs.specFile project with
            | some FileOutcome.ioError => Except.error PyErr.ioError
            | some (FileOutcome.content c) => pure c
            | none => pure ""
          let tasks :=
            match truthyStr args.feature with
            | some feature =>
              tasks.filter fun (t : Task) =>
                pyContains (pyLower (t.name.getD "")) (pyLower feature) ||
                pyContains (pyLower (t.description.getD "")) (pyLower feature)
            | none => tasks
          let pending_tasks := tasks.filter (taskPending completed)
          match pending_tasks with
          | [] =>
            pure { status := "ok",
                   summary := "All tasks completed for \x27" ++ project ++ "\x27!",
                   completedCount := some completed.length,
                   totalCount := some tasks.length,
                   artifacts := [] }
          | task :: _ =>
            let prompt := buildPrompt project (fs.projectsDir ++ "/" ++ project)
              spec_content task
            let spawn := sessions_spawn prompt
              ("autoforge-build-" ++ project ++ "-" ++ fmtOpt task.id) 600
            if spawn.status = "pending" then
              pure { status := "pending",
                     summary := "Build task \x27" ++ fmtOpt task.name ++
                       "\x27 requires OpenClaw sub-agent",
                     task := some task, actionRequired := some spawn.action,
                     artifacts := [] }
            else if spawn.status = "error" then
              pure { status := "error", summary := "Build failed: None",
                     task := some task, artifacts := [] }
            else
              pure { status := "ok",
                     summary := "Completed task: " ++ fmtOpt task.name,
                     task := some task,
                     completedCount := some (completed.length + 1),
                     totalCount := some tasks.length, artifacts := [] }

/-- cmd_status never raises: its json.loads sits inside a bare try/except.
Only status and summary are represented; the projects/tasks payload is
informational. -/
def cmd_status (args : AfArgs) (fs : AfFs) : AfResult :=
  match truthyStr args.project with
  | none =>
    if !fs.projectsDirExists then
      { status := "ok", summary := "No projects found", artifacts := [] }
    else
      let projects := fs.projectsChildren.filter fun p =>
        p.isDir && !pyStartsWith p.name "."
      { status := "ok",
        summary := "Found " ++ natToStr projects.length ++ " project(s)",
        artifacts := [] }
  | some project =>
    if !fs.projectExists project then
      { status := "error",
        summary := "Project \x27" ++ project ++ "\x27 not found", artifacts := [] }
    else
      { status := "ok", summary := "Project \x27" ++ project ++ "\x27 status",
        artifacts := [] }

def COMMAND_NAMES : List String := ["help", "init", "plan", "build", "status"]

/-- Dispatch of main: the handler for a known command, the unknown-command
result otherwise. -/
def dispatch (command : String) (args : AfArgs) (fs : AfFs) : Except PyErr AfResult :=
  if command = "help" then pure (cmd_help args)
  else if command = "init" then pure (cmd_init args fs).1
  else if command = "plan" then pure (cmd_plan args fs)
  else if command = "build" then cmd_build args fs
  else if command = "status" then pure (cmd_status args fs)
  else
    pure { status := "error", summary := "Unknown command: " ++ command,
           artifacts := [] }

/-- main: load the request (an absent request.json means help; malformed JSON
raises out of load_request), dispatch, set the command key, write the result,
and exit 0 exactly when status is "ok".  The returned pair is (the written
result document, the process exit code). -/
def af_main (requestFile : Option (Option Request)) (fs : AfFs) :
    Except PyErr (AfResult × Nat) := do
  let request ←
    match requestFile with
    | none => pure ({ command := some "help" } : Request)
    | some none => Except.error PyErr.jsonDecodeError
    | some (some r) => pure r
  let command := request.command.getD "help"
  let result ← dispatch command request.args fs
  let result := { result with command := some command }
  pure (result, if result.status = "ok" then 0 else 1)

end Autoforge


namespace Skillify

/-! ## Claims -/

/-! ### C7: no signature matches means exactly the generic tag -/

/-- C7: for every repository whose file-name set matches none of the declared
signature patterns of any project type, detect_project_type returns exactly
["generic"]; and for every repository the classification result is never
empty. -/
theorem C7_generic_fallback :
    (∀ (tree : List FsEntry) (setOrder : List String → List String),
      (∀ l, (setOrder l).Perm l) →
      (∀ p ∈ PROJECT_SIGNATURES, ∀ sig ∈ p.2,
        sigMatch (filesOfList tree) sig = false) →
      detect_project_type tree setOrder = ["generic"]) ∧
    (∀ (tree : List FsEntry) (setOrder : List String → List String),
      detect_project_type tree setOrder ≠ []) := by
  constructor
  · intro tree setOrder hperm hnone
    have hmt : matchedTypes (filesOfList tree) = [] := by
      unfold matchedTypes
      have : PROJECT_SIGNATURES.filter
          (fun p => p.2.any (sigMatch (filesOfList tree))) = [] := by
        apply List.filter_eq_nil_iff.mpr
        intro p hp
        simp only [Bool.not_eq_true, List.any_eq_false]
        intro sig hsig
        simp [hnone p hp sig hsig]
      rw [this]
      rfl
    have hempty : setOrder [] = [] := by
      have := hperm []
      exact List.Perm.eq_nil this
    unfold detect_project_type
    rw [hmt, hempty]
    rfl
  · intro tree setOrder
    unfold detect_project_type
    by_cases h : setOrder (matchedTypes (filesOfList tree)) = []
    · simp [h]
    · simp [h]

/-- Witness for C7 at a concrete repository with no matching signature. -/
theorem C7_generic_fallback_witness :
    detect_project_type [.file "hello.c"] id = ["generic"] ∧
    detect_project_type [.file "hello.c"] id ≠ [] :=
  ⟨C7_generic_fallback.1 [.file "hello.c"] id (fun l => List.Perm.refl l) (by decide),
   C7_generic_fallback.2 [.file "hello.c"] id⟩

/-! ### C1: metadata field precedence -/

/-- A repository whose package.json and Cargo.toml both declare a non-empty
description. -/
def repoC1 : Repo :=
  { dirName := "demo"
    tree := [.file "package.json", .file "Cargo.toml"]
    packageJson := some (.content (some
      { name := some "pkg", description := some "alpha",
        version := some "1.0.0", scripts := [], dependencies := [] }))
    pyproject := none
    cargo := some (.content { regexName := some "demo-rs", regexDesc := some "beta" })
    makefile := none
    docFiles := [] }

/-- C1 counterexample: on repoC1 the claim says the resulting description is
the package.json value "alpha"; the code yields the Cargo.toml value "beta"
(the Cargo block overwrites non-empty fields). -/
theorem C1_counterexample :
    get_project_metadata true repoC1 =
      Except.ok { name := "demo-rs", description := "beta", version := "1.0.0",
                  scripts := [], dependencies := [] } ∧
    ("beta" : String) ≠ "alpha" := by
  constructor
  · rfl
  · decide

/-- C1 amended: later sources overwrite earlier values rather than filling
only empty fields.  (a) Whenever Cargo.toml is readable and its description
regex matches d, any successful run ends with description d, regardless of
what package.json or pyproject.toml declared.  (b) Only in the absence of the
later sources does the package.json description survive. -/
theorem C1_metadata_precedence :
    (∀ (tomllibAvailable : Bool) (repo : Repo) (f : CargoFile) (d : String)
       (m : Metadata),
      repo.cargo = some (.content f) → f.regexDesc = some d →
      get_project_metadata tomllibAvailable repo = Except.ok m →
      m.description = d) ∧
    (∀ (tomllibAvailable : Bool) (repo : Repo) (pkg : PkgJsonFile) (m : Metadata),
      repo.pyproject = none → repo.cargo = none →
      repo.packageJson = some (.content (some pkg)) →
      get_project_metadata tomllibAvailable repo = Except.ok m →
      m.description = pkg.description.getD "") := by
  constructor
  · intro t repo f d m hcargo hdesc hrun
    unfold get_project_metadata at hrun
    cases hpy : metaPyproject t repo (metaFromPkg repo) with
    | error e => rw [hpy] at hrun; exact absurd hrun (by simp [Except.map])
    | ok m' =>
      rw [hpy] at hrun
      simp only [Except.map] at hrun
      have hm : m = metaCargo repo m' := by
        cases hrun; rfl
      rw [hm]
      unfold metaCargo
      rw [hcargo]
      simp [hdesc]
  · intro t repo pkg m hpy hcargo hpkg hrun
    unfold get_project_metadata at hrun
    unfold metaPyproject at hrun
    rw [hpy] at hrun
    simp only [Except.map] at hrun
    have hm : m = metaCargo repo (metaFromPkg repo) := by
      cases hrun; rfl
    rw [hm]
    unfold metaCargo
    rw [hcargo]
    unfold metaFromPkg
    simp [hpkg]

/-- C1 witness: both conjuncts applied at concrete repositories. -/
theorem C1_metadata_precedence_witness :
    (get_project_metadata true repoC1 =
        Except.ok { name := "demo-rs", description := "beta", version := "1.0.0",
                    scripts := [], dependencies := [] } →
      ("beta" : String) = "beta") ∧
    (get_project_metadata true
        { repoC1 with cargo := none, tree := [.file "package.json"] } =
        Except.ok { name := "pkg", description := "alpha", version := "1.0.0",
                    scripts := [], dependencies := [] } →
      ("alpha" : String) = "alpha") := by
  constructor
  · intro h
    exact C1_metadata_precedence.1 true repoC1
      { regexName := some "demo-rs", regexDesc := some "beta" } "beta" _ rfl rfl h
  · intro h
    exact C1_metadata_precedence.2 true
      { repoC1 with cargo := none, tree := [.file "package.json"] }
      { name := some "pkg", description := some "alpha",
        version := some "1.0.0", scripts := [], dependencies := [] } _ rfl rfl rfl h

/-! ### C2: parse failures inside get_project_metadata -/

/-- A repository whose pyproject.toml is present but rejected by tomllib. -/
def repoC2 : Repo :=
  { dirName := "demo"
    tree := [.file "pyproject.toml"]
    packageJson := none
    pyproject := some (.content { toml := none, regexName := none, regexDesc := none })
    cargo := none
    makefile := none
    docFiles := [] }

/-- C2: the claim is that every parse failure is caught inside
get_project_metadata.  The pyproject block catches only ImportError and
IOError, so with tomllib importable a TOMLDecodeError raised on malformed
TOML escapes to the caller and aborts the run; the same file under the
regex fallback (tomllib unavailable) is absorbed.  This evaluates the
embedded code at the failing input. -/
theorem C2_toml_error_escapes :
    get_project_metadata true repoC2 = Except.error PyErr.tomlDecodeError ∧
    get_project_metadata false repoC2 =
      Except.ok { name := "demo", description := "", version := "",
                  scripts := [], dependencies := [] } := by
  constructor
  · rfl
  · rfl

/-! ### C3: temporary clone directory lifecycle -/

/-- C3 counterexample: a URL source whose clone fails.  The RuntimeError is
raised before the try/finally is entered, so the freshly created temporary
directory is neither removed nor even submitted to shutil.rmtree, although
keep_clone is false. -/
theorem C3_counterexample :
    (generate_skill_run "https://example.com/r.git" false true
        { cloneSucceeds := false, bodyRaises := false, rmtreeFails := false }).tempCreated
      = true ∧
    (generate_skill_run "https://example.com/r.git" false true
        { cloneSucceeds := false, bodyRaises := false, rmtreeFails := false }).removalAttempted
      = false ∧
    (generate_skill_run "https://example.com/r.git" false true
        { cloneSucceeds := false, bodyRaises := false, rmtreeFails := false }).outcome
      = GenOutcome.cloneFailed := by
  refine ⟨rfl, rfl, rfl⟩

/-- C3 amended: once the clone has succeeded, cleanup is guaranteed on both
remaining exit paths (normal return and an error raised in the body): rmtree
is invoked exactly when keep_clone is false, a removal failure is swallowed
(the outcome is the same whatever rmtree does), and with a working rmtree the
directory is gone.  On the failed-clone path the directory is leaked. -/
theorem C3_cleanup :
    ∀ (source : String) (keepClone localExists : Bool) (env : GenEnv),
      is_url source = true → env.cloneSucceeds = true →
      (generate_skill_run source keepClone localExists env).removalAttempted
          = !keepClone ∧
      (keepClone = false → env.rmtreeFails = false →
        (generate_skill_run source keepClone localExists env).tempRemoved = true) ∧
      (generate_skill_run source keepClone localExists env).outcome
          = (if env.bodyRaises then GenOutcome.bodyError else GenOutcome.ok) := by
  intro source keepClone localExists env hurl hclone
  cases keepClone with
  | false =>
    refine ⟨?_, ?_, ?_⟩
    · unfold generate_skill_run; rw [hurl, hclone]; rfl
    · intro _ hrm
      unfold generate_skill_run
      rw [hurl, hclone]
      simp [hrm]
    · unfold generate_skill_run; rw [hurl, hclone]; rfl
  | true =>
    refine ⟨?_, ?_, ?_⟩
    · unfold generate_skill_run; rw [hurl, hclone]; rfl
    · intro h; cases h
    · unfold generate_skill_run; rw [hurl, hclone]; rfl

/-- C3 witness: a successful clone with a body error and keep_clone false
still removes the temporary directory. -/
theorem C3_cleanup_witness :
    (generate_skill_run "https://example.com/r.git" false true
        { cloneSucceeds := true, bodyRaises := true, rmtreeFails := false }).removalAttempted
      = !false ∧
    ((false : Bool) = false → (false : Bool) = false →
      (generate_skill_run "https://example.com/r.git" false true
          { cloneSucceeds := true, bodyRaises := true, rmtreeFails := false }).tempRemoved = true) ∧
    (generate_skill_run "https://example.com/r.git" false true
        { cloneSucceeds := true, bodyRaises := true, rmtreeFails := false }).outcome
      = (if ({ cloneSucceeds := true, bodyRaises := true, rmtreeFails := false } : GenEnv).bodyRaises
          then GenOutcome.bodyError else GenOutcome.ok) :=
  C3_cleanup "https://example.com/r.git" false true
    { cloneSucceeds := true, bodyRaises := true, rmtreeFails := false } (by decide) rfl

/-! ### C6: entry point list invariants -/

/-- A repository whose Makefile declares the same target twice. -/
def repoC6 : Repo :=
  { dirName := "demo"
    tree := []
    packageJson := none
    pyproject := none
    cargo := none
    makefile := some (.content "foo:\nfoo:\n")
    docFiles := [] }

/-- C6 counterexample: detect_entry_points never deduplicates, so a Makefile
declaring target foo twice yields the command "make foo" twice. -/
theorem C6_counterexample :
    detect_entry_points repoC6 = ["make foo", "make foo"] ∧
    ¬ (detect_entry_points repoC6).Nodup := by
  constructor
  · rfl
  · decide

/-- Is a command one of the five canonical make commands. -/
def isCanonCmd (s : String) : Bool :=
  (CANONICAL_TARGETS.map fun t => "make " ++ t).contains s

lemma contains_iff_mem {a : String} {l : List String} :
    l.contains a = true ↔ a ∈ l := by
  simp [List.contains]

lemma make_append_inj {b c : String} (h : ("make " ++ b) = ("make " ++ c)) :
    b = c := by
  have h' : ('m' :: 'a' :: 'k' :: 'e' :: ' ' :: b.data)
      = ('m' :: 'a' :: 'k' :: 'e' :: ' ' :: c.data) := congrArg String.data h
  have h1 := (List.cons.inj h').2
  have h2 := (List.cons.inj h1).2
  have h3 := (List.cons.inj h2).2
  have h4 := (List.cons.inj h3).2
  have h5 := (List.cons.inj h4).2
  exact congrArg String.mk h5

lemma npm_ne_make (s t : String) : ("npm run " ++ s) ≠ ("make " ++ t) := by
  intro h
  have hd : ('n' :: 'p' :: 'm' :: ' ' :: 'r' :: 'u' :: 'n' :: ' ' :: s.data)
      = ('m' :: 'a' :: 'k' :: 'e' :: ' ' :: t.data) := congrArg String.data h
  exact absurd (List.cons.inj hd).1 (by decide)

lemma isCanon_make (t : String) :
    isCanonCmd ("make " ++ t) = CANONICAL_TARGETS.contains t := by
  cases hb : CANONICAL_TARGETS.contains t with
  | true =>
    have ht : t ∈ CANONICAL_TARGETS := contains_iff_mem.mp hb
    exact contains_iff_mem.mpr (List.mem_map.mpr ⟨t, ht, rfl⟩)
  | false =>
    cases hc : isCanonCmd ("make " ++ t) with
    | false => rfl
    | true =>
      exfalso
      rcases List.mem_map.mp (contains_iff_mem.mp hc) with ⟨u, hu, hequ⟩
      have : u = t := make_append_inj hequ
      subst this
      rw [contains_iff_mem.mpr hu] at hb
      cases hb

lemma isCanon_npm (x : String) : isCanonCmd ("npm run " ++ x) = false := by
  cases hc : isCanonCmd ("npm run " ++ x) with
  | false => rfl
  | true =>
    exfalso
    rcases List.mem_map.mp (contains_iff_mem.mp hc) with ⟨u, _, hequ⟩
    exact npm_ne_make x u hequ.symm

/-- The shape invariant of the entry point list: a block of canonical make
commands followed by a block of everything else. -/
def canonSplit (l : List String) : Prop :=
  ∃ C R, l = C ++ R ∧ (∀ s ∈ C, isCanonCmd s = true) ∧ (∀ s ∈ R, isCanonCmd s = false)

/-- A list with no canonical command trivially has the split shape. -/
lemma canonSplit_of_all_noncanon (l : List String)
    (h : ∀ s ∈ l, isCanonCmd s = false) : canonSplit l :=
  ⟨[], l, rfl, fun s hs => absurd hs (List.not_mem_nil s), h⟩

lemma canonSplit_foldl (ts : List String) :
    ∀ acc : List String, canonSplit acc →
      canonSplit (ts.foldl
        (fun acc t =>
          if CANONICAL_TARGETS.contains t then ("make " ++ t) :: acc
          else acc ++ ["make " ++ t]) acc) := by
  induction ts with
  | nil => exact fun acc h => h
  | cons t rest ih =>
    rintro acc ⟨C, R, hacc, hC, hR⟩
    simp only [List.foldl_cons]
    by_cases hc : CANONICAL_TARGETS.contains t = true
    · rw [if_pos hc]
      apply ih
      refine ⟨("make " ++ t) :: C, R, by rw [hacc]; rfl, ?_, hR⟩
      intro s hs
      rcases List.mem_cons.mp hs with h | h
      · subst h; rw [isCanon_make, hc]
      · exact hC s h
    · rw [if_neg hc]
      apply ih
      refine ⟨C, R ++ ["make " ++ t], by rw [hacc, List.append_assoc], hC, ?_⟩
      intro s hs
      rcases List.mem_append.mp hs with h | h
      · exact hR s h
      · rcases List.mem_singleton.mp h with rfl
        rw [isCanon_make]
        exact Bool.eq_false_iff.mpr hc

lemma canonSplit_take (l : List String) (k : Nat) (h : canonSplit l) :
    canonSplit (l.take k) := by
  rcases h with ⟨C, R, rfl, hC, hR⟩
  refine ⟨C.take k, R.take (k - C.length), List.take_append_eq_append_take, ?_, ?_⟩
  · exact fun s hs => hC s (List.take_subset _ _ hs)
  · exact fun s hs => hR s (List.take_subset _ _ hs)

lemma canonSplit_append_right (l extra : List String)
    (h : canonSplit l) (hextra : ∀ s ∈ extra, isCanonCmd s = false) :
    canonSplit (l ++ extra) := by
  rcases h with ⟨C, R, rfl, hC, hR⟩
  refine ⟨C, R ++ extra, by rw [List.append_assoc], hC, ?_⟩
  intro s hs
  rcases List.mem_append.mp hs with h | h
  · exact hR s h
  · exact hextra s h

/-- C6 amended: the list detect_entry_points returns has length at most 15
and every canonical make command in it precedes every non-canonical command
(the list splits into a canonical block followed by the rest); the
no-duplicates part of the claim fails and is dropped. -/
theorem C6_entry_points : ∀ repo : Repo,
    (detect_entry_points repo).length ≤ 15 ∧ canonSplit (detect_entry_points repo) := by
  intro repo
  constructor
  · exact List.length_take_le 15 _
  · unfold detect_entry_points
    apply canonSplit_take
    have hexec : canonSplit (EXEC_NAMES.filter fun n =>
        rootHasName repo.tree n || srcHasName repo.tree n) := by
      apply canonSplit_of_all_noncanon
      intro s hs
      have hmem : s ∈ EXEC_NAMES := List.mem_of_mem_filter hs
      have hall : ∀ x ∈ EXEC_NAMES, isCanonCmd x = false := by decide
      exact hall s hmem
    have hmk : canonSplit
        (match repo.makefile with
         | some (.content content) =>
           ((makefileTargets content).take 10).foldl
             (fun acc t =>
               if CANONICAL_TARGETS.contains t then ("make " ++ t) :: acc
               else acc ++ ["make " ++ t])
             (EXEC_NAMES.filter fun n =>
               rootHasName repo.tree n || srcHasName repo.tree n)
         | _ => EXEC_NAMES.filter fun n =>
             rootHasName repo.tree n || srcHasName repo.tree n) := by
      cases hm : repo.makefile with
      | none => exact hexec
      | some fo =>
        cases fo with
        | ioError => exact hexec
        | content c => exact canonSplit_foldl _ _ hexec
    cases hp : repo.packageJson with
    | none => simpa [hp] using hmk
    | some fo =>
      cases fo with
      | ioError => simpa [hp] using hmk
      | content parsed =>
        cases parsed with
        | none => simpa [hp] using hmk
        | some pkg =>
          simp only [hp]
          apply canonSplit_append_right _ _ hmk
          intro s hs
          rcases List.mem_map.mp hs with ⟨x, _, rfl⟩
          exact isCanon_npm x

end Skillify

namespace Autoforge

open Skillify (truthyStr FileOutcome PyErr contains_iff_mem pyContains pyLower)

/-! ### C8: build on a fully completed project -/

/-- A project whose tasks.json parses to zero tasks (so every task id is
vacuously in the completed list). -/
def fsC8 : AfFs :=
  { projectsDir := "projects"
    projectExists := fun p => p = "p1"
    tasksFile := fun p =>
      if p = "p1" then some (some { tasks := [], completed := [] }) else none }

/-- C8 counterexample: with zero tasks every task id appears in the completed
list, yet cmd_build returns status "error" (the not-tasks guard fires before
the pending check), not the claimed "ok" with an all-complete summary. -/
theorem C8_counterexample :
    cmd_build { project := some "p1" } fsC8 =
      Except.ok { status := "error",
                  summary := "No tasks defined. Run \x27plan\x27 first.",
                  artifacts := [] } ∧
    ("error" : String) ≠ "ok" := by
  exact ⟨rfl, by decide⟩


/-- C8 amended: for a project with at least one task where every task id
appears in the completed list, cmd_build returns status "ok" with the
all-tasks-completed summary and no delegated action, whatever the optional
feature filter is. -/
theorem C8_build_all_completed :
    ∀ (args : AfArgs) (fs : AfFs) (project : String) (data : TasksData),
      truthyStr args.project = some project →
      fs.projectExists project = true →
      fs.tasksFile project = some (some data) →
      data.tasks ≠ [] →
      (∀ t ∈ data.tasks, ∃ i, t.id = some i ∧ i ∈ data.completed) →
      fs.specFile project ≠ some FileOutcome.ioError →
      ∃ r : AfResult,
        cmd_build args fs = Except.ok r ∧
        r.status = "ok" ∧
        r.summary = "All tasks completed for \x27" ++ project ++ "\x27!" ∧
        r.actionRequired = none := by
  intro args fs project data hproj hexists htasks hnonempty hdone hspec
  have hpend : ∀ (l : List Task), (∀ t ∈ l, t ∈ data.tasks) →
      l.filter (taskPending data.completed) = [] := by
    intro l hsub
    apply List.filter_eq_nil_iff.mpr
    intro t ht
    rcases hdone t (hsub t ht) with ⟨i, hid, hmem⟩
    have hc : data.completed.contains i = true := contains_iff_mem.mpr hmem
    simp only [taskPending, hid, hc, Bool.not_true]
    exact Bool.false_ne_true
  unfold cmd_build
  cases hsf : fs.specFile project with
  | none =>
    cases hfeat : truthyStr args.feature with
    | none =>
      refine ⟨{ status := "ok",
                summary := "All tasks completed for \x27" ++ project ++ "\x27!",
                completedCount := some data.completed.length,
                totalCount := some data.tasks.length, artifacts := [] },
              ?_, rfl, rfl, rfl⟩
      simp only [hproj, hexists, htasks, hsf, hfeat, Bool.not_true,
        Bool.false_eq_true, if_false, if_neg hnonempty, bind, Except.bind, pure,
        hpend data.tasks (fun t ht => ht)]
      rfl
    | some feature =>
      refine ⟨{ status := "ok",
                summary := "All tasks completed for \x27" ++ project ++ "\x27!",
                completedCount := some data.completed.length,
                totalCount := some ((data.tasks.filter fun (t : Task) =>
                  pyContains (pyLower (t.name.getD "")) (pyLower feature) ||
                  pyContains (pyLower (t.description.getD "")) (pyLower feature)).length),
                artifacts := [] },
              ?_, rfl, rfl, rfl⟩
      simp only [hproj, hexists, htasks, hsf, hfeat, Bool.not_true,
        Bool.false_eq_true, if_false, if_neg hnonempty, bind, Except.bind, pure,
        hpend _ (fun t ht => List.mem_of_mem_filter ht)]
      rfl
  | some fo =>
    cases fo with
    | ioError => exact absurd hsf hspec
    | content c =>
      cases hfeat : truthyStr args.feature with
      | none =>
        refine ⟨{ status := "ok",
                  summary := "All tasks completed for \x27" ++ project ++ "\x27!",
                  completedCount := some data.completed.length,
                  totalCount := some data.tasks.length, artifacts := [] },
                ?_, rfl, rfl, rfl⟩
        simp only [hproj, hexists, htasks, hsf, hfeat, Bool.not_true,
          Bool.false_eq_true, if_false, if_neg hnonempty, bind, Except.bind, pure,
          hpend data.tasks (fun t ht => ht)]
        rfl
      | some feature =>
        refine ⟨{ status := "ok",
                  summary := "All tasks completed for \x27" ++ project ++ "\x27!",
                  completedCount := some data.completed.length,
                  totalCount := some ((data.tasks.filter fun (t : Task) =>
                    pyContains (pyLower (t.name.getD "")) (pyLower feature) ||
                    pyContains (pyLower (t.description.getD "")) (pyLower feature)).length),
                  artifacts := [] },
                ?_, rfl, rfl, rfl⟩
        simp only [hproj, hexists, htasks, hsf, hfeat, Bool.not_true,
          Bool.false_eq_true, if_false, if_neg hnonempty, bind, Except.bind, pure,
          hpend _ (fun t ht => List.mem_of_mem_filter ht)]
        rfl

/-- A concrete fully-completed project for the C8 witness. -/
def fsC8w : AfFs :=
  { projectsDir := "projects"
    projectExists := fun p => p = "p2"
    tasksFile := fun p =>
      if p = "p2" then
        some (some { tasks := [{ id := some "t1" }], completed := ["t1"] })
      else none }

/-- C8 witness: the amended theorem applied at a one-task project whose task
is completed. -/
theorem C8_build_all_completed_witness :
    ∃ r : AfResult,
      cmd_build { project := some "p2" } fsC8w = Except.ok r ∧
      r.status = "ok" ∧
      r.summary = "All tasks completed for \x27" ++ "p2" ++ "\x27!" ∧
      r.actionRequired = none :=
  C8_build_all_completed { project := some "p2" } fsC8w "p2"
    { tasks := [{ id := some "t1" }], completed := ["t1"] }
    rfl rfl rfl (by decide)
    (by
      intro t ht
      rw [List.mem_singleton] at ht
      subst ht
      exact ⟨"t1", rfl, by decide⟩)
    (by decide)

/-! ### C9: exit code discipline of main -/

/-- C9: whenever main writes a result, the process exit code is 0 exactly
when the result status is "ok"; a plan request that comes back "pending"
exits 1, and an unknown command still writes a well-formed error result and
exits 1. -/
theorem C9_exit_code :
    (∀ (requestFile : Option (Option Request)) (fs : AfFs) (r : AfResult) (code : Nat),
      af_main requestFile fs = Except.ok (r, code) →
      (code = 0 ↔ r.status = "ok")) ∧
    (∀ (a : AfArgs) (fs : AfFs) (r : AfResult) (code : Nat),
      af_main (some (some { command := some "plan", args := a })) fs =
        Except.ok (r, code) →
      r.status = "pending" → code = 1) ∧
    (∀ (c : String) (a : AfArgs) (fs : AfFs),
      c ∉ COMMAND_NAMES →
      af_main (some (some { command := some c, args := a })) fs =
        Except.ok ({ status := "error", summary := "Unknown command: " ++ c,
                     artifacts := [], command := some c }, 1)) := by
  have core : ∀ (c : String) (a : AfArgs) (fs : AfFs) (r : AfResult) (code : Nat),
      Except.bind (dispatch c a fs)
        (fun result =>
          Except.pure (({ result with command := some c } : AfResult),
            if result.status = "ok" then (0 : Nat) else 1)) = Except.ok (r, code) →
      code = if r.status = "ok" then 0 else 1 := by
    intro c a fs r code h
    cases hd : dispatch c a fs with
    | error e =>
      rw [hd] at h
      exact Except.noConfusion h
    | ok res =>
      rw [hd] at h
      simp only [Except.bind, Except.pure] at h
      have hpair := Except.ok.inj h
      have hr : ({ res with command := some c } : AfResult) = r :=
        congrArg Prod.fst hpair
      have hcode : (if res.status = "ok" then (0 : Nat) else 1) = code :=
        congrArg Prod.snd hpair
      have hst : r.status = res.status := by rw [← hr]
      rw [← hcode, hst]
  have first : ∀ (requestFile : Option (Option Request)) (fs : AfFs)
      (r : AfResult) (code : Nat),
      af_main requestFile fs = Except.ok (r, code) →
      (code = 0 ↔ r.status = "ok") := by
    intro rf fs r code h
    have hcode : code = if r.status = "ok" then 0 else 1 := by
      cases rf with
      | none => exact core "help" {} fs r code h
      | some o =>
        cases o with
        | none =>
          have hrfl : af_main (some none) fs = Except.error PyErr.jsonDecodeError := rfl
          rw [hrfl] at h
          exact Except.noConfusion h
        | some req => exact core (req.command.getD "help") req.args fs r code h
    rw [hcode]
    by_cases hok : r.status = "ok"
    · simp [hok]
    · simp [hok]
  refine ⟨first, ?_, ?_⟩
  · intro a fs r code h hpending
    have hcode : code = if r.status = "ok" then 0 else 1 :=
      core "plan" a fs r code h
    rw [hcode, hpending]
    rfl
  · intro c a fs hc
    have hnot : ¬(c = "help") ∧ ¬(c = "init") ∧ ¬(c = "plan") ∧ ¬(c = "build") ∧
        ¬(c = "status") := by
      simp only [COMMAND_NAMES, List.mem_cons, List.mem_singleton, not_or] at hc
      simpa using hc
    have hd : dispatch c a fs =
        Except.ok { status := "error", summary := "Unknown command: " ++ c,
                    artifacts := [] } := by
      unfold dispatch
      rw [if_neg hnot.1, if_neg hnot.2.1, if_neg hnot.2.2.1, if_neg hnot.2.2.2.1,
        if_neg hnot.2.2.2.2]
      rfl
    show Except.bind (dispatch c a fs)
        (fun result =>
          Except.pure (({ result with command := some c } : AfResult),
            if result.status = "ok" then (0 : Nat) else 1)) = _
    rw [hd]
    rfl

/-- C9 witness: an unknown command at a concrete filesystem exits 1 with the
error result written. -/
theorem C9_exit_code_witness :
    af_main (some (some { command := some "frobnicate" }))
        { projectsDir := "projects" } =
      Except.ok ({ status := "error",
                   summary := "Unknown command: " ++ "frobnicate",
                   artifacts := [], command := some "frobnicate" }, 1) :=
  C9_exit_code.2.2 "frobnicate" {} { projectsDir := "projects" } (by decide)

/-! ### C10: re-initialisation never overwrites existing files -/

/-- C10: cmd_init only writes a file when it does not already exist, so the
content of every pre-existing file (in particular prompts/app_spec.txt and
.autoforge/tasks.json) is unchanged by a re-initialisation, whatever the
arguments. -/
theorem C10_init_preserves_files :
    ∀ (args : AfArgs) (fs : AfFs) (path content : String),
      fs.files.lookup path = some content →
      ((cmd_init args fs).2).files.lookup path = some content := by
  have guard : ∀ (files : List (String × String)) (p c path content : String),
      files.lookup path = some content →
      (writeIfAbsent files p c).lookup path = some content := by
    intro files p c path content h
    unfold writeIfAbsent
    by_cases hp : (files.lookup p).isSome
    · rw [if_pos hp]
      exact h
    · rw [if_neg hp]
      have hne : (path == p) = false := by
        cases heq : path == p with
        | false => rfl
        | true =>
          exfalso
          have : path = p := by simpa using heq
          subst this
          rw [h] at hp
          exact hp (by simp)
      simp only [List.lookup, hne]
      exact h
  intro args fs path content h
  cases hname : truthyStr args.name with
  | none =>
    simp only [cmd_init, hname]
    exact h
  | some name =>
    simp only [cmd_init, hname]
    exact guard _ _ _ _ _ (guard _ _ _ _ _ h)

/-- The filesystem of an already-initialised project for the C10 witness. -/
def fsC10 : AfFs :=
  { projectsDir := "projects"
    files := [("projects/alpha/prompts/app_spec.txt", "KEEP")] }

/-- C10 witness: re-initialising a project whose spec file exists leaves its
content untouched. -/
theorem C10_init_preserves_files_witness :
    fsC10.files.lookup "projects/alpha/prompts/app_spec.txt" = some "KEEP" ∧
    ((cmd_init { name := some "alpha" } fsC10).2).files.lookup
        "projects/alpha/prompts/app_spec.txt" = some "KEEP" :=
  ⟨rfl, C10_init_preserves_files { name := some "alpha" } fsC10
    "projects/alpha/prompts/app_spec.txt" "KEEP" rfl⟩

end Autoforge

namespace Skillify

/-! ### C5: determinism of the generated SKILL.md -/

instance exceptDecEq {ε α : Type} [DecidableEq ε] [DecidableEq α] :
    DecidableEq (Except ε α)
  | Except.error a, Except.error b =>
    if h : a = b then Decidable.isTrue (by rw [h])
    else Decidable.isFalse (fun hh => h (Except.error.inj hh))
  | Except.error _, Except.ok _ => Decidable.isFalse (fun hh => Except.noConfusion hh)
  | Except.ok _, Except.error _ => Decidable.isFalse (fun hh => Except.noConfusion hh)
  | Except.ok a, Except.ok b =>
    if h : a = b then Decidable.isTrue (by rw [h])
    else Decidable.isFalse (fun hh => h (Except.ok.inj hh))

/-- A repository classified as both python and node (empty manifests that
parse successfully). -/
def repoC5 : Repo :=
  { dirName := "demo"
    tree := [.file "pyproject.toml", .file "package.json"]
    packageJson := some (.content (some
      { name := none, description := none, version := none,
        scripts := [], dependencies := [] }))
    pyproject := some (.content
      { toml := some { name := none, description := none, version := none,
                       dependencies := [] },
        regexName := none, regexDesc := none })
    cargo := none
    makefile := none
    docFiles := [] }

/-- C5 counterexample: two runs of the generator differ only in the iteration
order of the Python expression list(set(types)) (str hashes are randomized
per process, so the order is not fixed between two runs); identity and
reversal are both admissible orders (each returns a permutation of its
input), yet they render different SKILL.md bytes, because the detected-type
list is joined into the document in set order. -/
theorem C5_counterexample :
    (∀ l : List String, (id l).Perm l) ∧
    (∀ l : List String, l.reverse.Perm l) ∧
    skill_md_of true repoC5 id ≠ skill_md_of true repoC5 List.reverse := by
  refine ⟨fun l => List.Perm.refl l, fun l => List.reverse_perm l, ?_⟩
  set_option maxRecDepth 10000 in decide

/-- find? returns the element at the first qualifying index. -/
lemma find?_of_first {α : Type} (pred : α → Bool) : ∀ (l : List α) (i : Nat) (p : α),
    l[i]? = some p → pred p = true →
    (∀ j q, j < i → l[j]? = some q → pred q = false) →
    l.find? pred = some p := by
  intro l
  induction l with
  | nil =>
    intro i p hget
    rw [List.getElem?_nil] at hget
    exact absurd hget (by simp)
  | cons x xs ih =>
    intro i p hget hp hbefore
    cases i with
    | zero =>
      rw [List.getElem?_cons_zero] at hget
      have hx : x = p := Option.some.inj hget
      subst hx
      exact List.find?_cons_of_pos _ hp
    | succ n =>
      have hx : pred x = false := hbefore 0 x (Nat.succ_pos n) List.getElem?_cons_zero
      rw [List.find?_cons_of_neg _ (by simp [hx])]
      rw [List.getElem?_cons_succ] at hget
      exact ih n p hget hp
        (fun j q hj hq => hbefore (j + 1) q (Nat.succ_lt_succ hj)
          (by rw [List.getElem?_cons_succ]; exact hq))

/-- C5 amended: the generated SKILL.md is a deterministic function of the
repository state and the set-iteration order of the detected types; the only
order dependence is the detected-type list itself (two runs whose
list(set(types)) orders coincide produce byte-identical documents), and the
README purpose paragraph is selected deterministically as the FIRST qualifying
stripped paragraph. -/
theorem C5_determinism :
    (∀ (tomllibAvailable : Bool) (repo : Repo)
       (order1 order2 : List String → List String),
      order1 (matchedTypes (filesOfList repo.tree)) =
        order2 (matchedTypes (filesOfList repo.tree)) →
      skill_md_of tomllibAvailable repo order1 =
        skill_md_of tomllibAvailable repo order2) ∧
    (∀ (readme : String) (i : Nat) (p : String),
      readme ≠ "" →
      ((pySplitParas readme).map pyStrip)[i]? = some p →
      purposeQualifies p = true →
      (∀ j q, j < i → ((pySplitParas readme).map pyStrip)[j]? = some q →
        purposeQualifies q = false) →
      readmePurpose readme = pyTake p 500) := by
  constructor
  · intro t repo o1 o2 h
    unfold skill_md_of detect_project_type
    rw [h]
  · intro readme i p hne hget hp hbefore
    unfold readmePurpose
    rw [if_neg hne]
    rw [find?_of_first purposeQualifies _ i p hget hp hbefore]

/-- A README whose first paragraph is a heading and whose second qualifies. -/
def readmeC5w : String :=
  "# Heading\n\nThis paragraph is clearly longer than fifty characters in total."

/-- C5 witness: both conjuncts at concrete inputs (equal orders on repoC5;
the second paragraph of readmeC5w is the purpose). -/
theorem C5_determinism_witness :
    skill_md_of true repoC5 id = skill_md_of true repoC5 id ∧
    readmePurpose readmeC5w =
      pyTake "This paragraph is clearly longer than fifty characters in total." 500 := by
  constructor
  · exact C5_determinism.1 true repoC5 id id rfl
  · apply C5_determinism.2 readmeC5w 1
      "This paragraph is clearly longer than fifty characters in total."
      (by decide) rfl (by decide)
    intro j q hj hq
    have hj0 : j = 0 := Nat.lt_one_iff.mp hj
    subst hj0
    have h0 : ((pySplitParas readmeC5w).map pyStrip)[0]? = some "# Heading" := rfl
    rw [h0] at hq
    have hq' : q = "# Heading" := (Option.some.inj hq).symm
    rw [hq']
    decide

/-! ### C4: directory tree bounds -/

/-- C4 counterexample: with max_files = 1, a directory holding two files plus
a sibling file produces three lines and TWO ellipsis lines: the inner walk
appends its ellipsis and returns, then the parent loop resumes, overflows on
its next entry and appends its own ellipsis. -/
theorem C4_counterexample :
    get_directory_tree_lines [.dir "a" false [.file "x", .file "y"], .file "b"] 3 1
      = ["├── a", "│   ...", "..."] ∧
    (get_directory_tree_lines [.dir "a" false [.file "x", .file "y"], .file "b"] 3 1).length
      = 3 ∧
    ¬ ((get_directory_tree_lines
        [.dir "a" false [.file "x", .file "y"], .file "b"] 3 1).length ≤ 1) := by
  refine ⟨by decide, by decide, by decide⟩


/-- One step preserves the line/counter correspondence and, when the counter
was still within max_files, keeps it within max_files plus the child budget
B. -/
lemma walkStep_inv (wk : Bool → List FsEntry → String → TState → TState)
    (maxFiles total : Nat) (pre : String) (B : Nat)
    (W1 : ∀ perr ch pre' s', (wk perr ch pre' s').lines.length + s'.fileCount
        = s'.lines.length + (wk perr ch pre' s').fileCount)
    (W2 : ∀ perr ch pre' s', (wk perr ch pre' s').fileCount
        ≤ max s'.fileCount maxFiles + B)
    (i : Nat) (e : FsEntry) (s : TState) :
    ((walkStep wk total pre i e s).lines.length + s.fileCount
      = s.lines.length + (walkStep wk total pre i e s).fileCount) ∧
    (s.fileCount + 1 ≤ maxFiles →
      (walkStep wk total pre i e s).fileCount ≤ maxFiles + B) := by
  cases e with
  | file n =>
    constructor
    · simp [walkStep]
      omega
    · intro hc
      simp only [walkStep]
      omega
  | dir n perr ch =>
    constructor
    · simp only [walkStep]
      have h1 := W1 perr ch (pre ++ (if i = total - 1 then "    " else "│   "))
        ⟨s.lines ++ [pre ++ (if i = total - 1 then "└── " else "├── ") ++
          (FsEntry.dir n perr ch).name], s.fileCount + 1⟩
      simp only [List.length_append, List.length_cons, List.length_nil] at h1 ⊢
      omega
    · intro hc
      simp only [walkStep]
      have h2 := W2 perr ch (pre ++ (if i = total - 1 then "    " else "│   "))
        ⟨s.lines ++ [pre ++ (if i = total - 1 then "└── " else "├── ") ++
          (FsEntry.dir n perr ch).name], s.fileCount + 1⟩
      have hmax : max (s.fileCount + 1) maxFiles = maxFiles := Nat.max_eq_right hc
      simp only [hmax] at h2
      exact h2

/-- Invariants of the loop of walk, parameterized over the one-level-deeper
walk `wk`: every appended line is matched by exactly one counter increment;
the counter stays within max_files plus B plus one (its own ellipsis); and
once the counter has already overflowed, a resumed loop adds at most one
increment (its ellipsis line) before returning. -/
lemma walkLoop_inv (wk : Bool → List FsEntry → String → TState → TState)
    (maxFiles total : Nat) (pre : String) (B : Nat)
    (W1 : ∀ perr ch pre' s', (wk perr ch pre' s').lines.length + s'.fileCount
        = s'.lines.length + (wk perr ch pre' s').fileCount)
    (W2 : ∀ perr ch pre' s', (wk perr ch pre' s').fileCount
        ≤ max s'.fileCount maxFiles + B) :
    ∀ (l : List FsEntry) (i : Nat) (s : TState),
      ((walkLoop wk maxFiles total pre l i s).lines.length + s.fileCount
        = s.lines.length + (walkLoop wk maxFiles total pre l i s).fileCount) ∧
      ((walkLoop wk maxFiles total pre l i s).fileCount
        ≤ max s.fileCount maxFiles + (B + 1)) ∧
      (s.fileCount > maxFiles →
        (walkLoop wk maxFiles total pre l i s).fileCount ≤ s.fileCount + 1) := by
  intro l
  induction l with
  | nil =>
    intro i s
    refine ⟨by simp [walkLoop], ?_, fun _ => ?_⟩
    · simp only [walkLoop]
      exact le_trans (le_max_left _ _) (Nat.le_add_right _ _)
    · simp only [walkLoop]
      exact Nat.le_succ _
  | cons e rest ih =>
    intro i s
    by_cases hig : isIgnored e = true
    · simp only [walkLoop, if_pos hig]
      exact ih (i + 1) s
    · by_cases hc : s.fileCount + 1 > maxFiles
      · simp only [walkLoop, if_neg hig, if_pos hc]
        refine ⟨by simp; omega, ?_, fun _ => Nat.le_refl _⟩
        have := le_max_left s.fileCount maxFiles
        omega
      · simp only [walkLoop, if_neg hig, if_neg hc]
        have hcle : s.fileCount + 1 ≤ maxFiles := Nat.not_lt.mp hc
        obtain ⟨hsA, hsB⟩ := walkStep_inv wk maxFiles total pre B W1 W2 i e s
        have hsB' := hsB hcle
        obtain ⟨ihA, ihB, ihC⟩ := ih (i + 1) (walkStep wk total pre i e s)
        refine ⟨by omega, ?_, fun hover => by omega⟩
        have hmaxs : max s.fileCount maxFiles = maxFiles :=
          Nat.max_eq_right (by omega)
        rw [hmaxs]
        by_cases h2 : (walkStep wk total pre i e s).fileCount > maxFiles
        · have := ihC h2
          omega
        · have hmax2 : max (walkStep wk total pre i e s).fileCount maxFiles
              = maxFiles := Nat.max_eq_right (Nat.not_lt.mp h2)
          rw [hmax2] at ihB
          omega

/-- Invariants of walk: the number of lines added equals the counter
increase, and the counter never exceeds max_files plus one ellipsis per
remaining level (max_depth + 1 - depth of them). -/
lemma walkFuel_inv (mD mF : Nat) :
    ∀ (fuel : Nat) (perr : Bool) (ch : List FsEntry) (depth : Nat)
      (pre : String) (s : TState),
      ((walkFuel mD mF fuel perr ch depth pre s).lines.length + s.fileCount
        = s.lines.length + (walkFuel mD mF fuel perr ch depth pre s).fileCount) ∧
      ((walkFuel mD mF fuel perr ch depth pre s).fileCount
        ≤ max s.fileCount mF + (mD + 1 - depth)) := by
  intro fuel
  induction fuel with
  | zero =>
    intro perr ch depth pre s
    refine ⟨by simp [walkFuel], ?_⟩
    simp only [walkFuel]
    exact le_trans (le_max_left _ _) (Nat.le_add_right _ _)
  | succ n ih =>
    intro perr ch depth pre s
    by_cases hguard : (decide (depth > mD) || decide (s.fileCount > mF)) = true
    · have hs : walkFuel mD mF (n + 1) perr ch depth pre s = s := by
        simp [walkFuel, hguard]
      rw [hs]
      exact ⟨rfl, le_trans (le_max_left _ _) (Nat.le_add_right _ _)⟩
    · have hg := hguard
      simp only [Bool.or_eq_true, decide_eq_true_eq, not_or] at hg
      have hd : depth ≤ mD := Nat.not_lt.mp hg.1
      have hcount : s.fileCount ≤ mF := Nat.not_lt.mp hg.2
      by_cases hperr : perr = true
      · have hs : walkFuel mD mF (n + 1) perr ch depth pre s = s := by
          simp [walkFuel, hguard, hperr]
        rw [hs]
        exact ⟨rfl, le_trans (le_max_left _ _) (Nat.le_add_right _ _)⟩
      · have hs : walkFuel mD mF (n + 1) perr ch depth pre s =
            walkLoop (fun perr' ch' pre' s' =>
                walkFuel mD mF n perr' ch' (depth + 1) pre' s')
              mF (sortEntries ch).length pre (sortEntries ch) 0 s := by
          simp [walkFuel, hguard, hperr]
        rw [hs]
        have hW1 : ∀ (perr' : Bool) (ch' : List FsEntry) (pre' : String) (s' : TState),
            ((walkFuel mD mF n perr' ch' (depth + 1) pre' s').lines.length + s'.fileCount
              = s'.lines.length +
                (walkFuel mD mF n perr' ch' (depth + 1) pre' s').fileCount) :=
          fun perr' ch' pre' s' => (ih perr' ch' (depth + 1) pre' s').1
        have hW2 : ∀ (perr' : Bool) (ch' : List FsEntry) (pre' : String) (s' : TState),
            (walkFuel mD mF n perr' ch' (depth + 1) pre' s').fileCount
              ≤ max s'.fileCount mF + (mD - depth) := by
          intro perr' ch' pre' s'
          have h := (ih perr' ch' (depth + 1) pre' s').2
          have heq : mD + 1 - (depth + 1) = mD - depth := by omega
          rw [heq] at h
          exact h
        obtain ⟨hA, hB, _⟩ := walkLoop_inv
          (fun perr' ch' pre' s' => walkFuel mD mF n perr' ch' (depth + 1) pre' s')
          mF (sortEntries ch).length pre (mD - depth) hW1 hW2
          (sortEntries ch) 0 s
        refine ⟨hA, ?_⟩
        have heq2 : mD - depth + 1 = mD + 1 - depth := by omega
        rw [← heq2]
        exact hB

/-- C4 amended: the rendered tree has at most max_files + max_depth + 1 lines
(at most max_files entry lines plus one ellipsis line per active level, of
which there are at most max_depth + 1), not max_files; several ellipsis lines
may appear (one per ancestor level), and walk never descends past max_depth
(at depth greater than max_depth it returns its state unchanged). -/
theorem C4_tree_bounds :
    (∀ (tree : List FsEntry) (maxDepth maxFiles : Nat),
      (get_directory_tree_lines tree maxDepth maxFiles).length
        ≤ maxFiles + maxDepth + 1) ∧
    (∀ (maxDepth maxFiles fuel : Nat) (permError : Bool) (ch : List FsEntry)
       (depth : Nat) (pre : String) (s : TState),
      depth > maxDepth →
      walkFuel maxDepth maxFiles fuel permError ch depth pre s = s) := by
  constructor
  · intro tree mD mF
    obtain ⟨hA, hB⟩ := walkFuel_inv mD mF (mD + 2) false tree 0 "" ⟨[], 0⟩
    unfold get_directory_tree_lines
    have hA' : (walkFuel mD mF (mD + 2) false tree 0 "" ⟨[], 0⟩).lines.length
        = (walkFuel mD mF (mD + 2) false tree 0 "" ⟨[], 0⟩).fileCount := by
      simpa using hA
    have hB' : (walkFuel mD mF (mD + 2) false tree 0 "" ⟨[], 0⟩).fileCount
        ≤ mF + (mD + 1) := by
      simpa using hB
    omega
  · intro mD mF fuel perr ch depth pre s h
    cases fuel with
    | zero => rfl
    | succ n => simp [walkFuel, h]

/-- C4 witness: the bound at a concrete repository and the depth guard at a
concrete over-depth call. -/
theorem C4_tree_bounds_witness :
    (get_directory_tree_lines [] 3 1).length ≤ 1 + 3 + 1 ∧
    walkFuel 3 1 6 false [FsEntry.file "deep.txt"] 4 "" ⟨[], 0⟩ = ⟨[], 0⟩ :=
  ⟨C4_tree_bounds.1 [] 3 1,
   C4_tree_bounds.2 3 1 6 false [FsEntry.file "deep.txt"] 4 "" ⟨[], 0⟩ (by decide)⟩

end Skillify
